import Mathlib

/-!
Shallow embedding of the golang-eth repository's core logic:

* the log-event dispatcher `parseLogEvent` and the subscription select loop
  (`06-subscribe-logs.go`, function `parseLogEvent` and the `main` loop), and
* the resilient historical-range fetcher (`lesson-04/examples/02-block-ops/main.go`,
  functions `fetchBlockWithRetry` and `fetchBlockRange`).

Bytes are modelled as `Nat` (each in `[0,256)` where it matters); a 32-byte
topic word (`common.Hash`) is a `List Nat` of length 32.  External library
behaviour that the repository merely calls — `crypto.Keccak256Hash` over a
signature string and `abi.ABI.Unpack` over a payload — is passed in as an
explicit function argument, since that code lives in go-ethereum, not in this
repository.  All printing is modelled as structured output values.
-/

/-- A topic word: the byte sequence of a `common.Hash` (32 bytes in the Go code). -/
abbrev Topic := List Nat

/-- The type tags of `abi.Type.T` in go-ethereum that the decode `switch` in
`parseLogEvent` can encounter.  The switch names `AddressTy`, `IntTy`, `UintTy`,
`BoolTy`, `BytesTy`, `FixedBytesTy` and has a `default` arm for all others. -/
inductive AbiTy where
  | intTy | uintTy | boolTy | stringTy | sliceTy | arrayTy | tupleTy
  | addressTy | fixedBytesTy | bytesTy | hashTy | fixedPointTy | functionTy
  deriving DecidableEq, Repr

/-- One entry of `abi.Event.Inputs`: `abi.Argument` restricted to the fields
the dispatcher reads (`Name`, `Type.T`, `Indexed`). -/
structure Argument where
  name : String
  ty : AbiTy
  indexed : Bool
  deriving DecidableEq, Repr

/-- An `abi.Event` as used by `parseLogEvent`: its canonical signature string
`Sig` (hashed for matching) and its ordered `Inputs`. -/
structure AbiEvent where
  sig : String
  inputs : List Argument
  deriving DecidableEq, Repr

/-- A `types.Log` restricted to the fields `parseLogEvent` reads. -/
structure Log where
  topics : List Topic
  data : List Nat
  blockNumber : Nat
  txHash : String
  index : Nat
  address : String
  deriving DecidableEq, Repr

/-- `new(big.Int).SetBytes`: interpret a byte sequence as an unsigned
big-endian magnitude. -/
def beBytesToNat (bs : List Nat) : Nat :=
  bs.foldl (fun acc b => acc * 256 + b) 0

/-- `common.BytesToAddress`: keep the low-order (last) 20 bytes, discarding
any high-order padding.  For a 32-byte word this drops the first 12 bytes. -/
def bytesToAddress (bs : List Nat) : List Nat :=
  bs.drop (bs.length - 20)

/-- The value printed for one indexed parameter by the `switch input.Type.T`
in `parseLogEvent`.  `rawHex` is the `default` arm, printed with a
`" (raw)"` marker. -/
inductive TopicValue where
  | address (bytes : List Nat)
  | integer (n : Nat)
  | boolean (b : Bool)
  | hexBytes (word : Topic)
  | rawHex (word : Topic)
  deriving DecidableEq, Repr

/-- The `switch input.Type.T` of `parseLogEvent` decoding one 32-byte topic
word according to the declared parameter type.  It is a total function:
every arm, including the `default`, produces a printed value. -/
def decodeTopic (t : AbiTy) (topic : Topic) : TopicValue :=
  match t with
  | .addressTy => .address (bytesToAddress topic)
  | .intTy => .integer (beBytesToNat topic)
  | .uintTy => .integer (beBytesToNat topic)
  | .boolTy => .boolean (topic.getD 31 0 != 0)
  | .bytesTy => .hexBytes topic
  | .fixedBytesTy => .hexBytes topic
  | _ => .rawHex topic

/-- Whether `AbiTy` is one of the types given a dedicated arm by the decode
switch (everything else falls to the `default` raw-hex arm). -/
def supportedTopicTy (t : AbiTy) : Bool :=
  match t with
  | .addressTy | .intTy | .uintTy | .boolTy | .bytesTy | .fixedBytesTy => true
  | _ => false

/-- The indexed-parameter loop of `parseLogEvent` (step 3): walk the event's
inputs in declaration order, skip non-indexed ones, locate each indexed
parameter at topic position `1 + indexedParamIndex`, skip it when that
position is beyond the available topics, and otherwise decode the word.
Each emitted tuple is `(declaration position + 1, name, type, value)`,
matching the printed `[%d] %s (%s): %v` line.  `i` is the 0-based position
in the input list and `idxCount` the number of indexed inputs already seen. -/
def decodeIndexedGo (topics : List Topic) :
    List Argument → Nat → Nat → List (Nat × String × AbiTy × TopicValue)
  | [], _, _ => []
  | inp :: rest, i, idxCount =>
    if !inp.indexed then
      decodeIndexedGo topics rest (i + 1) idxCount
    else
      let topicIndex := 1 + idxCount
      if topicIndex ≥ topics.length then
        decodeIndexedGo topics rest (i + 1) (idxCount + 1)
      else
        (i + 1, inp.name, inp.ty, decodeTopic inp.ty (topics.getD topicIndex [])) ::
          decodeIndexedGo topics rest (i + 1) (idxCount + 1)

/-- All indexed parameters decoded from the topic words. -/
def decodeIndexedParams (inputs : List Argument) (topics : List Topic) :
    List (Nat × String × AbiTy × TopicValue) :=
  decodeIndexedGo topics inputs 0 0

/-- A value produced by `abi.ABI.Unpack` as discriminated by the
`switch v := value.(type)` in step 4 (`*big.Int`, `common.Address`, `[]byte`,
default `%v`). -/
inductive AbiVal where
  | bigInt (n : Nat)
  | address (bs : List Nat)
  | bytes (bs : List Nat)
  | otherVal (s : String)
  deriving DecidableEq, Repr

/-- The printing loop over unpacked values (step 4): walk inputs in order,
print the next unpacked value for each non-indexed input while values remain
(`nonIndexedIdx < len(values)`); `i` is the 0-based declaration position. -/
def formatValuesGo : List Argument → List AbiVal → Nat → List (Nat × String × AbiTy × AbiVal)
  | [], _, _ => []
  | inp :: rest, values, i =>
    if inp.indexed then
      formatValuesGo rest values (i + 1)
    else
      match values with
      | [] => formatValuesGo rest [] (i + 1)
      | v :: vs => (i + 1, inp.name, inp.ty, v) :: formatValuesGo rest vs (i + 1)

/-- What step 4 of `parseLogEvent` prints for the non-indexed payload. -/
inductive DataOutput where
  /-- `len(vLog.Data) == 0`: prints `Non-Indexed Parameters: None`. -/
  | noData
  /-- Data present but the event declares no non-indexed inputs: only the
  section header is printed. -/
  | headerOnly
  /-- `parsedABI.Unpack` failed: prints `Error decoding data: <err>`. -/
  | decodeError (msg : String)
  /-- Unpack succeeded: the printed `(position, name, type, value)` lines. -/
  | values (vs : List (Nat × String × AbiTy × AbiVal))
  deriving DecidableEq, Repr

/-- Step 4 of `parseLogEvent`: decode the non-indexed parameters from the
`Data` field.  `unpack` stands for `parsedABI.Unpack(eventName, vLog.Data)`
(go-ethereum library code), taking the event name and payload. -/
def decodeDataSection (unpack : String → List Nat → Except String (List AbiVal))
    (eventName : String) (inputs : List Argument) (data : List Nat) : DataOutput :=
  if data.length > 0 then
    let nonIndexedInputs := inputs.filter (fun a => !a.indexed)
    if nonIndexedInputs.length > 0 then
      match unpack eventName data with
      | .error e => .decodeError e
      | .ok values => .values (formatValuesGo inputs values 0)
    else .headerOnly
  else .noData

/-- Everything `parseLogEvent` prints for one log record. -/
inductive ParseOutput where
  /-- `len(vLog.Topics) == 0`: the function returns without printing. -/
  | noOutput
  /-- Unrecognized signature: the degraded record with only provenance
  fields — block number, transaction hash, and topic 0. -/
  | unknown (blockNumber : Nat) (txHash : String) (topic0 : Topic)
  /-- A recognized event with its decoded indexed and non-indexed parts. -/
  | decoded (eventName : String) (indexed : List (Nat × String × AbiTy × TopicValue))
      (dataPart : DataOutput)
  deriving DecidableEq, Repr

/-- `parseLogEvent` itself.  `keccak` stands for `crypto.Keccak256Hash` over
the event signature string (library code); `events` is `parsedABI.Events` as
a name-keyed association list; the match loop breaks on the first event whose
signature hash equals `Topics[0]`, leaving `eventName` empty when none does
(map iteration order only matters if two digests collide, which the ERC-20
schema excludes). -/
def parseLogEvent (keccak : String → Topic)
    (unpack : String → List Nat → Except String (List AbiVal))
    (events : List (String × AbiEvent)) (vLog : Log) : ParseOutput :=
  match vLog.topics with
  | [] => .noOutput
  | eventTopic :: _ =>
    match events.find? (fun p => keccak p.2.sig == eventTopic) with
    | none => .unknown vLog.blockNumber vLog.txHash eventTopic
    | some (name, ev) =>
      if name == "" then .unknown vLog.blockNumber vLog.txHash eventTopic
      else
        .decoded name (decodeIndexedParams ev.inputs vLog.topics)
          (decodeDataSection unpack name ev.inputs vLog.data)

/-- One arrival at the `select` of the subscription loop in `main`:
a log record on `logsCh`, an error on `sub.Err()`, an OS signal on `sigCh`,
or `ctx.Done()`. -/
inductive LoopMsg where
  | log (l : Log)
  | subErr (e : String)
  | signal (s : String)
  | ctxDone
  deriving DecidableEq, Repr

/-- Whether a message is one of the three shutdown triggers: every arm of the
select other than a log arrival makes `main` return. -/
def isShutdownTrigger : LoopMsg → Bool
  | .log _ => false
  | .subErr _ => true
  | .signal _ => true
  | .ctxDone => true

/-- The `for { select { ... } }` loop of `main` run over a scripted arrival
sequence: each log arrival is dispatched through `parseLogEvent` and the loop
continues; the first subscription error, OS signal, or context cancellation
makes the loop return, so nothing after it is ever processed. -/
def runLoop (keccak : String → Topic)
    (unpack : String → List Nat → Except String (List AbiVal))
    (events : List (String × AbiEvent)) : List LoopMsg → List ParseOutput
  | [] => []
  | .log l :: rest => parseLogEvent keccak unpack events l :: runLoop keccak unpack events rest
  | .subErr _ :: _ => []
  | .signal _ :: _ => []
  | .ctxDone :: _ => []

/-!
## The resilient range fetcher (`lesson-04/examples/02-block-ops/main.go`)

`client.BlockByNumber` under a per-attempt `context.WithTimeout(ctx, 10s)` is
modelled by a function `doFetch : Nat → Except String α` giving the outcome of
the 0-based attempt number (network results may differ between attempts); the
fetched block itself is an opaque value of type `α`.  Each attempt and each
backoff sleep is recorded in a trace. -/

/-- One observable action of `fetchBlockWithRetry`: an attempt executed under
a freshly created deadline of `timeoutMs` milliseconds, or a
`time.Sleep` of `ms` milliseconds. -/
inductive RetryEvent where
  | attempt (timeoutMs : Nat)
  | sleep (ms : Nat)
  deriving DecidableEq, Repr

/-- Number of fetch attempts recorded in a retry trace. -/
def attemptCount (tr : List RetryEvent) : Nat :=
  (tr.filter (fun e => match e with | .attempt _ => true | .sleep _ => false)).length

/-- The loop body of `fetchBlockWithRetry`, recursing on the number of
remaining iterations (`remaining = maxRetries - i`).  `i` is the 0-based
attempt about to run and `lastErr` the error of the previous failed attempt.
On success the block is returned at once; after a failure the code sleeps
`(i+1) * 500ms` — unless this was the final iteration (`i = maxRetries-1`,
i.e. `remaining = 1`) — and retries; when iterations are exhausted the error
result carries `lastErr`, to be wrapped by the caller. -/
def retryAux (doFetch : Nat → Except String α) :
    Nat → Nat → Option String → Except (Option String) α × List RetryEvent
  | 0, _, lastErr => (.error lastErr, [])
  | r + 1, i, _ =>
    match doFetch i with
    | .ok b => (.ok b, [.attempt 10000])
    | .error e =>
      if r = 0 then (.error (some e), [.attempt 10000])
      else
        ((retryAux doFetch r (i + 1) (some e)).1,
         .attempt 10000 :: .sleep ((i + 1) * 500) :: (retryAux doFetch r (i + 1) (some e)).2)

/-- `fetchBlockWithRetry`: up to `maxRetries` attempts, each under a fresh
10-second deadline, linear backoff between failed attempts, and on
exhaustion the error `fmt.Errorf("failed after %d retries: %w", maxRetries,
lastErr)`, modelled as the pair `(maxRetries, lastErr)` so that the wrapping
of the last attempt's error stays visible. -/
def fetchBlockWithRetry (doFetch : Nat → Except String α) (maxRetries : Nat) :
    Except (Nat × Option String) α × List RetryEvent :=
  match retryAux doFetch maxRetries 0 none with
  | (.ok b, tr) => (.ok b, tr)
  | (.error lastErr, tr) => (.error (maxRetries, lastErr), tr)

/-- One observable action of `fetchBlockRange`: waiting on the rate-limit
ticker, finishing a height (with its success flag and number of attempts
consumed), the `[INFO] Context cancelled, stopping at block %d` log, or the
final `=== Summary ===` print. -/
inductive RangeStep where
  | tick
  | fetched (height : Nat) (ok : Bool) (attempts : Nat)
  | cancelledLog (height : Nat)
  | summaryOut (success skip total : Nat)
  deriving DecidableEq, Repr

/-- Whether a step is the final Summary print. -/
def isSummaryStep : RangeStep → Bool
  | .summaryOut _ _ _ => true
  | _ => false

/-- The `for num := start; num <= end; num++` loop of `fetchBlockRange` over
the remaining heights.  Each iteration waits one ticker tick, runs
`fetchBlockWithRetry` with the hardcoded retry budget `2`; on error the
height is skipped and the scan continues; on success, `ctx.Done()` is
polled (`cancelled num`) — if set the function returns immediately (no
Summary), otherwise the scan continues.  After the last height the Summary
is printed with the success/skip counters and `total = end - start + 1`.
`doFetch h a` is the outcome of attempt `a` at height `h`. -/
def rangeGo (doFetch : Nat → Nat → Except String α) (cancelled : Nat → Bool)
    (total : Nat) : List Nat → Nat → Nat → List RangeStep
  | [], successCount, skipCount => [.summaryOut successCount skipCount total]
  | num :: rest, successCount, skipCount =>
    match fetchBlockWithRetry (doFetch num) 2 with
    | (.error _, tr) =>
      .tick :: .fetched num false (attemptCount tr) ::
        rangeGo doFetch cancelled total rest successCount (skipCount + 1)
    | (.ok _, tr) =>
      if cancelled num then
        [.tick, .fetched num true (attemptCount tr), .cancelledLog num]
      else
        .tick :: .fetched num true (attemptCount tr) ::
          rangeGo doFetch cancelled total rest (successCount + 1) skipCount

/-- `fetchBlockRange` over the closed interval `[start, end_]`.  `main`
rejects `start > end_` before this function is ever called, so the height
list is the ascending enumeration of the interval. -/
def fetchBlockRange (doFetch : Nat → Nat → Except String α) (cancelled : Nat → Bool)
    (start end_ : Nat) : List RangeStep :=
  rangeGo doFetch cancelled (end_ - start + 1) (List.range' start (end_ - start + 1)) 0 0

/-!
## Helper definitions used by the verification
-/

/-- The retry trace produced by `j` consecutive failed attempts numbered
`i, i+1, ..., i+j-1`, each run under its fresh 10-second deadline and each
followed by the linear-backoff sleep `(k+1) * 500` milliseconds. -/
def failSeg (i j : Nat) : List RetryEvent :=
  (List.range' i j).flatMap (fun k => [.attempt 10000, .sleep ((k + 1) * 500)])

/-- The backoff sleeps of a retry trace, in order. -/
def sleepDurations (tr : List RetryEvent) : List Nat :=
  tr.filterMap (fun e => match e with | .sleep d => some d | _ => none)

/-- The `Transfer(address,address,uint256)` event of the embedded ERC-20 ABI. -/
def transferEvent : AbiEvent :=
  { sig := "Transfer(address,address,uint256)"
    inputs := [⟨"from", .addressTy, true⟩, ⟨"to", .addressTy, true⟩,
               ⟨"value", .uintTy, false⟩] }

/-- The `Approval(address,address,uint256)` event of the embedded ERC-20 ABI. -/
def approvalEvent : AbiEvent :=
  { sig := "Approval(address,address,uint256)"
    inputs := [⟨"owner", .addressTy, true⟩, ⟨"spender", .addressTy, true⟩,
               ⟨"value", .uintTy, false⟩] }

/-- `parsedABI.Events` for the embedded ERC-20 ABI. -/
def erc20Events : List (String × AbiEvent) :=
  [("Transfer", transferEvent), ("Approval", approvalEvent)]

/-- A concrete stand-in for the signature digest function, used to evaluate
the dispatcher on concrete inputs: it separates the two ERC-20 signatures. -/
def testKeccak : String → Topic := fun s =>
  if s = transferEvent.sig then [1] else if s = approvalEvent.sig then [2] else [0]

/-- A concrete stand-in for `abi.ABI.Unpack` that always fails, used to
evaluate the dispatcher on concrete inputs. -/
def failUnpack : String → List Nat → Except String (List AbiVal) :=
  fun _ _ => .error "abi: cannot unpack"

/-- A concrete stand-in for `abi.ABI.Unpack` that succeeds with one value. -/
def okUnpack : String → List Nat → Except String (List AbiVal) :=
  fun _ _ => .ok [.bigInt 1000]

/-- A concrete log whose topic 0 matches no registered signature digest. -/
def unknownLog : Log :=
  { topics := [[7], [9]], data := [], blockNumber := 123, txHash := "0xdead",
    index := 0, address := "0xc0" }

/-- A concrete log carrying a recognized `Transfer` with a non-empty payload. -/
def transferLog : Log :=
  { topics := [[1], List.replicate 32 0, List.replicate 32 1],
    data := List.replicate 32 5, blockNumber := 77, txHash := "0xbeef",
    index := 2, address := "0xc0" }

/-- A concrete recognized `Transfer` log with an empty payload. -/
def emptyDataLog : Log :=
  { topics := [[1], List.replicate 32 0, List.replicate 32 1],
    data := [], blockNumber := 78, txHash := "0xfeed",
    index := 3, address := "0xc0" }

/-- A concrete log with no topics at all. -/
def topiclessLog : Log :=
  { topics := [], data := [1, 2], blockNumber := 80, txHash := "0xaaaa",
    index := 4, address := "0xc0" }

/-- Concrete per-height fetch outcomes with height 102 always failing and
every other height succeeding on its first attempt. -/
def c4Fetch : Nat → Nat → Except String Nat :=
  fun h _ => if h = 102 then .error "boom" else .ok h

/-- The trace of `fetchBlockRange` over `[100, 104]` with height 102 always
failing and no cancellation. -/
def c4Run : List RangeStep := fetchBlockRange c4Fetch (fun _ => false) 100 104

/-- The trace of `fetchBlockRange` over `[100, 104]` with every fetch
succeeding and the cancellation signal observed after height 102. -/
def c5Run : List RangeStep :=
  fetchBlockRange (fun h _ => (.ok h : Except String Nat)) (fun h => h == 102) 100 104

/-!
## Theorems
-/

/-- Shifting the accumulator of the big-endian fold. -/
lemma foldl_be_shift (bs : List Nat) (a : Nat) :
    bs.foldl (fun acc b => acc * 256 + b) a =
      a * 256 ^ bs.length + bs.foldl (fun acc b => acc * 256 + b) 0 := by
  induction bs generalizing a with
  | nil => simp
  | cons c cs ih =>
    simp only [List.foldl_cons, List.length_cons]
    rw [ih (a * 256 + c), ih (0 * 256 + c)]
    ring

/-- Head decomposition of the unsigned big-endian magnitude. -/
lemma beBytesToNat_cons (b : Nat) (bs : List Nat) :
    beBytesToNat (b :: bs) = b * 256 ^ bs.length + beBytesToNat bs := by
  unfold beBytesToNat
  simp only [List.foldl_cons]
  rw [foldl_be_shift bs (0 * 256 + b)]
  ring

/-- C10: for every log record whose topic sequence is empty, the dispatcher
produces no output at all — neither a decoded event nor an unknown-event
placeholder — and returns immediately. -/
theorem parseLogEvent_no_topics (keccak : String → Topic)
    (unpack : String → List Nat → Except String (List AbiVal))
    (events : List (String × AbiEvent)) (vLog : Log)
    (h : vLog.topics = []) :
    parseLogEvent keccak unpack events vLog = ParseOutput.noOutput := by
  unfold parseLogEvent
  rw [h]

theorem parseLogEvent_no_topics_witness :
    topiclessLog.topics = [] ∧
    parseLogEvent testKeccak failUnpack erc20Events topiclessLog = ParseOutput.noOutput :=
  ⟨rfl, parseLogEvent_no_topics testKeccak failUnpack erc20Events topiclessLog rfl⟩

/-- C1: a log record whose first topic word matches no registered event
signature digest yields the degraded unknown-event record carrying only the
provenance fields (block height, transaction hash, topic 0), and the dispatch
loop continues past it rather than aborting. -/
theorem parseLogEvent_unknown_signature (keccak : String → Topic)
    (unpack : String → List Nat → Except String (List AbiVal))
    (events : List (String × AbiEvent)) (vLog : Log) (t0 : Topic) (ts : List Topic)
    (rest : List LoopMsg)
    (htop : vLog.topics = t0 :: ts)
    (hnone : ∀ p ∈ events, keccak p.2.sig ≠ t0) :
    parseLogEvent keccak unpack events vLog =
      ParseOutput.unknown vLog.blockNumber vLog.txHash t0 ∧
    runLoop keccak unpack events (.log vLog :: rest) =
      ParseOutput.unknown vLog.blockNumber vLog.txHash t0 ::
        runLoop keccak unpack events rest := by
  have hfind : events.find? (fun p => keccak p.2.sig == t0) = none := by
    apply List.find?_eq_none.mpr
    intro p hp
    simpa using hnone p hp
  have h1 : parseLogEvent keccak unpack events vLog =
      ParseOutput.unknown vLog.blockNumber vLog.txHash t0 := by
    simp [parseLogEvent, htop, hfind]
  exact ⟨h1, by rw [runLoop, h1]⟩

theorem parseLogEvent_unknown_signature_witness :
    unknownLog.topics = [7] :: [[9]] ∧
    (∀ p ∈ erc20Events, testKeccak p.2.sig ≠ [7]) ∧
    (parseLogEvent testKeccak failUnpack erc20Events unknownLog =
       ParseOutput.unknown unknownLog.blockNumber unknownLog.txHash [7] ∧
     runLoop testKeccak failUnpack erc20Events [.log unknownLog, .ctxDone] =
       ParseOutput.unknown unknownLog.blockNumber unknownLog.txHash [7] ::
         runLoop testKeccak failUnpack erc20Events [.ctxDone]) :=
  ⟨rfl, by decide,
   parseLogEvent_unknown_signature testKeccak failUnpack erc20Events unknownLog
     [7] [[9]] [.ctxDone] rfl (by decide)⟩

/-- C2: while the multiplexer loop runs, the first shutdown trigger — an
upstream subscription error, an external shutdown signal, or cancellation of
the governing context — terminates the loop: only the log records that
arrived before the trigger are decoded, and nothing arriving after it is
ever processed, however long the remaining script is. -/
theorem runLoop_shutdown_absorbing (keccak : String → Topic)
    (unpack : String → List Nat → Except String (List AbiVal))
    (events : List (String × AbiEvent))
    (logs : List Log) (t : LoopMsg) (post : List LoopMsg)
    (ht : isShutdownTrigger t = true) :
    runLoop keccak unpack events (logs.map LoopMsg.log ++ t :: post) =
      logs.map (parseLogEvent keccak unpack events) := by
  induction logs with
  | nil =>
    cases t with
    | log l => simp [isShutdownTrigger] at ht
    | subErr e => rfl
    | signal s => rfl
    | ctxDone => rfl
  | cons l ls ih =>
    simp only [List.map_cons, List.cons_append, runLoop, List.append_eq]
    rw [ih]

theorem runLoop_shutdown_absorbing_witness :
    isShutdownTrigger LoopMsg.ctxDone = true ∧
    runLoop testKeccak failUnpack erc20Events
        ([transferLog].map LoopMsg.log ++ LoopMsg.ctxDone :: [LoopMsg.log unknownLog]) =
      [transferLog].map (parseLogEvent testKeccak failUnpack erc20Events) :=
  ⟨rfl, runLoop_shutdown_absorbing testKeccak failUnpack erc20Events [transferLog]
      LoopMsg.ctxDone [LoopMsg.log unknownLog] rfl⟩

/-- C6: for every 32-byte topic word declared as an integer type — signed or
unsigned — the topic decoder returns the unsigned big-endian magnitude of all
32 bytes; a word whose two's-complement reading would be negative (leading
byte at least 128) still decodes to its large unsigned magnitude (at least
`2 ^ 255`), with no sign handling. -/
theorem decodeTopic_int_unsigned (t : AbiTy) (b : Nat) (bs : List Nat)
    (hint : t = AbiTy.intTy ∨ t = AbiTy.uintTy)
    (hlen : (b :: bs).length = 32) :
    decodeTopic t (b :: bs) = TopicValue.integer (beBytesToNat (b :: bs)) ∧
    (128 ≤ b → 2 ^ 255 ≤ beBytesToNat (b :: bs)) := by
  constructor
  · rcases hint with h | h <;> subst h <;> rfl
  · intro hneg
    have hbs : bs.length = 31 := by simpa using hlen
    rw [beBytesToNat_cons, hbs]
    calc 2 ^ 255 = 128 * 256 ^ 31 := by norm_num
    _ ≤ b * 256 ^ 31 := Nat.mul_le_mul_right _ hneg
    _ ≤ b * 256 ^ 31 + beBytesToNat bs := Nat.le_add_right _ _

theorem decodeTopic_int_unsigned_witness :
    (AbiTy.intTy = AbiTy.intTy ∨ AbiTy.intTy = AbiTy.uintTy) ∧
    (255 :: List.replicate 31 255).length = 32 ∧
    decodeTopic AbiTy.intTy (255 :: List.replicate 31 255) =
      TopicValue.integer (beBytesToNat (255 :: List.replicate 31 255)) ∧
    2 ^ 255 ≤ beBytesToNat (255 :: List.replicate 31 255) :=
  ⟨Or.inl rfl, by decide,
   (decodeTopic_int_unsigned AbiTy.intTy 255 (List.replicate 31 255)
      (Or.inl rfl) (by decide)).1,
   (decodeTopic_int_unsigned AbiTy.intTy 255 (List.replicate 31 255)
      (Or.inl rfl) (by decide)).2 (by decide)⟩

/-- C7: the per-type topic decode is total — an unsupported declared type is
surfaced as the raw word with the raw marker rather than failing, and a log
arrival never aborts the dispatch loop: after dispatching any record the loop
continues with the remaining arrivals. -/
theorem decodeTopic_unsupported_raw (t : AbiTy) (topic : Topic)
    (keccak : String → Topic)
    (unpack : String → List Nat → Except String (List AbiVal))
    (events : List (String × AbiEvent)) (l : Log) (rest : List LoopMsg)
    (hunsup : supportedTopicTy t = false) :
    decodeTopic t topic = TopicValue.rawHex topic ∧
    runLoop keccak unpack events (LoopMsg.log l :: rest) =
      parseLogEvent keccak unpack events l :: runLoop keccak unpack events rest := by
  constructor
  · cases t <;> simp_all [supportedTopicTy, decodeTopic]
  · rfl

theorem decodeTopic_unsupported_raw_witness :
    supportedTopicTy AbiTy.stringTy = false ∧
    decodeTopic AbiTy.stringTy [3] = TopicValue.rawHex [3] ∧
    runLoop testKeccak failUnpack erc20Events (LoopMsg.log unknownLog :: [LoopMsg.ctxDone]) =
      parseLogEvent testKeccak failUnpack erc20Events unknownLog ::
        runLoop testKeccak failUnpack erc20Events [LoopMsg.ctxDone] :=
  ⟨rfl,
   (decodeTopic_unsupported_raw AbiTy.stringTy [3] testKeccak failUnpack erc20Events
      unknownLog [LoopMsg.ctxDone] rfl).1,
   (decodeTopic_unsupported_raw AbiTy.stringTy [3] testKeccak failUnpack erc20Events
      unknownLog [LoopMsg.ctxDone] rfl).2⟩

/-- C9: a recognized event declaring at least one non-indexed parameter whose
record carries an empty payload raises no decode error: the payload branch is
skipped entirely (the output does not depend on the unpacker at all) and the
record is reported as having no non-indexed parameters. -/
theorem parseLogEvent_empty_payload_skips_decode (keccak : String → Topic)
    (unpack unpack' : String → List Nat → Except String (List AbiVal))
    (events : List (String × AbiEvent)) (vLog : Log)
    (name : String) (ev : AbiEvent) (t0 : Topic) (ts : List Topic)
    (htop : vLog.topics = t0 :: ts)
    (hfind : events.find? (fun p => keccak p.2.sig == t0) = some (name, ev))
    (hname : name ≠ "")
    (hdata : vLog.data = [])
    (hni : 0 < (ev.inputs.filter (fun a => !a.indexed)).length) :
    parseLogEvent keccak unpack events vLog =
      ParseOutput.decoded name (decodeIndexedParams ev.inputs vLog.topics)
        DataOutput.noData ∧
    parseLogEvent keccak unpack events vLog = parseLogEvent keccak unpack' events vLog := by
  have h1 : ∀ U : String → List Nat → Except String (List AbiVal),
      parseLogEvent keccak U events vLog =
        ParseOutput.decoded name (decodeIndexedParams ev.inputs vLog.topics)
          DataOutput.noData := by
    intro U
    simp [parseLogEvent, htop, hfind, hname, decodeDataSection, hdata]
  exact ⟨h1 unpack, (h1 unpack).trans (h1 unpack').symm⟩

theorem parseLogEvent_empty_payload_skips_decode_witness :
    emptyDataLog.topics = [1] :: [List.replicate 32 0, List.replicate 32 1] ∧
    erc20Events.find? (fun p => testKeccak p.2.sig == [1]) = some ("Transfer", transferEvent) ∧
    "Transfer" ≠ "" ∧
    emptyDataLog.data = [] ∧
    0 < (transferEvent.inputs.filter (fun a => !a.indexed)).length ∧
    (parseLogEvent testKeccak failUnpack erc20Events emptyDataLog =
       ParseOutput.decoded "Transfer"
         (decodeIndexedParams transferEvent.inputs emptyDataLog.topics)
         DataOutput.noData ∧
     parseLogEvent testKeccak failUnpack erc20Events emptyDataLog =
       parseLogEvent testKeccak okUnpack erc20Events emptyDataLog) :=
  ⟨rfl, by decide, by decide, rfl, by decide,
   parseLogEvent_empty_payload_skips_decode testKeccak failUnpack okUnpack erc20Events
     emptyDataLog "Transfer" transferEvent [1] [List.replicate 32 0, List.replicate 32 1]
     rfl (by decide) (by decide) rfl (by decide)⟩

/-- C8: a recognized record whose non-indexed payload fails ABI decoding is
reported with the decode error for that single record, and the dispatch loop
continues to the next arrival instead of terminating. -/
theorem parseLogEvent_decode_error_continues (keccak : String → Topic)
    (unpack : String → List Nat → Except String (List AbiVal))
    (events : List (String × AbiEvent)) (vLog : Log)
    (name : String) (ev : AbiEvent) (t0 : Topic) (ts : List Topic)
    (msg : String) (rest : List LoopMsg)
    (htop : vLog.topics = t0 :: ts)
    (hfind : events.find? (fun p => keccak p.2.sig == t0) = some (name, ev))
    (hname : name ≠ "")
    (hdata : vLog.data ≠ [])
    (hni : 0 < (ev.inputs.filter (fun a => !a.indexed)).length)
    (hunpack : unpack name vLog.data = .error msg) :
    parseLogEvent keccak unpack events vLog =
      ParseOutput.decoded name (decodeIndexedParams ev.inputs vLog.topics)
        (DataOutput.decodeError msg) ∧
    runLoop keccak unpack events (.log vLog :: rest) =
      parseLogEvent keccak unpack events vLog :: runLoop keccak unpack events rest := by
  have hlen : 0 < vLog.data.length := List.length_pos.mpr hdata
  constructor
  · simp [parseLogEvent, htop, hfind, hname, decodeDataSection, hlen, hni, hunpack]
  · rfl

theorem parseLogEvent_decode_error_continues_witness :
    transferLog.topics = [1] :: [List.replicate 32 0, List.replicate 32 1] ∧
    erc20Events.find? (fun p => testKeccak p.2.sig == [1]) = some ("Transfer", transferEvent) ∧
    "Transfer" ≠ "" ∧
    transferLog.data ≠ [] ∧
    0 < (transferEvent.inputs.filter (fun a => !a.indexed)).length ∧
    failUnpack "Transfer" transferLog.data = .error "abi: cannot unpack" ∧
    (parseLogEvent testKeccak failUnpack erc20Events transferLog =
       ParseOutput.decoded "Transfer"
         (decodeIndexedParams transferEvent.inputs transferLog.topics)
         (DataOutput.decodeError "abi: cannot unpack") ∧
     runLoop testKeccak failUnpack erc20Events [.log transferLog, .ctxDone] =
       parseLogEvent testKeccak failUnpack erc20Events transferLog ::
         runLoop testKeccak failUnpack erc20Events [.ctxDone]) :=
  ⟨rfl, by decide, by decide, by decide, by decide, rfl,
   parseLogEvent_decode_error_continues testKeccak failUnpack erc20Events transferLog
     "Transfer" transferEvent [1] [List.replicate 32 0, List.replicate 32 1]
     "abi: cannot unpack" [.ctxDone]
     rfl (by decide) (by decide) (by decide) (by decide) rfl⟩

/-- `attemptCount` over an attempt at the head. -/
lemma attemptCount_attempt_cons (d : Nat) (tr : List RetryEvent) :
    attemptCount (.attempt d :: tr) = attemptCount tr + 1 := by
  simp [attemptCount]

/-- `attemptCount` over a sleep at the head. -/
lemma attemptCount_sleep_cons (d : Nat) (tr : List RetryEvent) :
    attemptCount (.sleep d :: tr) = attemptCount tr := by
  simp [attemptCount]

/-- Unfolding `failSeg` by one failed attempt. -/
lemma failSeg_succ (i j : Nat) :
    failSeg i (j + 1) = .attempt 10000 :: .sleep ((i + 1) * 500) :: failSeg (i + 1) j := by
  simp [failSeg, List.range'_succ]

/-- One-step unfolding of the retry loop. -/
lemma retryAux_succ (doFetch : Nat → Except String α) (r i : Nat) (le : Option String) :
    retryAux doFetch (r + 1) i le =
      match doFetch i with
      | .ok b => (.ok b, [.attempt 10000])
      | .error e =>
        if r = 0 then (.error (some e), [.attempt 10000])
        else
          ((retryAux doFetch r (i + 1) (some e)).1,
           .attempt 10000 :: .sleep ((i + 1) * 500) ::
             (retryAux doFetch r (i + 1) (some e)).2) := rfl

/-- The retry loop never runs more iterations than its remaining budget. -/
lemma retryAux_attemptCount_le (doFetch : Nat → Except String α) :
    ∀ r i le, attemptCount (retryAux doFetch r i le).2 ≤ r := by
  intro r
  induction r with
  | zero => intro i le; simp [retryAux, attemptCount]
  | succ r ih =>
    intro i le
    cases hdf : doFetch i with
    | ok b => simp [retryAux, hdf, attemptCount]
    | error e =>
      by_cases hr : r = 0
      · subst hr; simp [retryAux, hdf, attemptCount]
      · have h := ih (i + 1) (some e)
        simp only [retryAux, hdf, hr, if_false, attemptCount_attempt_cons,
          attemptCount_sleep_cons]
        omega

/-- Every retry attempt runs with a budget of at least one iteration, so it
records at least one attempt. -/
lemma retryAux_attemptCount_pos (doFetch : Nat → Except String α) :
    ∀ r i le, 1 ≤ r → 1 ≤ attemptCount (retryAux doFetch r i le).2 := by
  intro r
  induction r with
  | zero => intro i le h; omega
  | succ r _ =>
    intro i le _
    cases hdf : doFetch i with
    | ok b => simp [retryAux, hdf, attemptCount]
    | error e =>
      by_cases hr : r = 0
      · subst hr; simp [retryAux, hdf, attemptCount]
      · simp only [retryAux, hdf, hr, if_false, attemptCount_attempt_cons]
        omega

/-- Every attempt in the retry trace carries its own fresh 10-second deadline. -/
lemma retryAux_fresh_deadline (doFetch : Nat → Except String α) :
    ∀ r i le d, RetryEvent.attempt d ∈ (retryAux doFetch r i le).2 → d = 10000 := by
  intro r
  induction r with
  | zero => intro i le d h; simp [retryAux] at h
  | succ r ih =>
    intro i le d h
    cases hdf : doFetch i with
    | ok b => simp [retryAux, hdf] at h; exact h
    | error e =>
      by_cases hr : r = 0
      · subst hr; simp [retryAux, hdf] at h; exact h
      · simp only [retryAux, hdf, hr, if_false, List.mem_cons] at h
        rcases h with h | h | h
        · cases h; rfl
        · cases h
        · exact ih (i + 1) (some e) d h

/-- The backoff sleeps of the retry trace are exactly linear: starting from
attempt number `i`, the recorded sleeps are `(i+1)*500, (i+2)*500, ...`, one
between each pair of consecutive attempts. -/
lemma retryAux_sleeps (doFetch : Nat → Except String α) :
    ∀ r i le, sleepDurations (retryAux doFetch r i le).2 =
      (List.range' (i + 1) (attemptCount (retryAux doFetch r i le).2 - 1)).map
        (fun k => k * 500) := by
  intro r
  induction r with
  | zero => intro i le; simp [retryAux, attemptCount, sleepDurations]
  | succ r ih =>
    intro i le
    cases hdf : doFetch i with
    | ok b => simp [retryAux, hdf, attemptCount, sleepDurations]
    | error e =>
      by_cases hr : r = 0
      · subst hr; simp [retryAux, hdf, attemptCount, sleepDurations]
      · have hpos := retryAux_attemptCount_pos doFetch r (i + 1) (some e) (by omega)
        simp only [retryAux, hdf, hr, if_false, attemptCount_attempt_cons,
          attemptCount_sleep_cons, sleepDurations, List.filterMap_cons]
        simp only [sleepDurations] at ih
        rw [ih (i + 1) (some e)]
        have hsplit : attemptCount (retryAux doFetch r (i + 1) (some e)).2 + 1 - 1 =
            (attemptCount (retryAux doFetch r (i + 1) (some e)).2 - 1) + 1 := by omega
        rw [hsplit, List.range'_succ]
        simp

/-- The first attempt that succeeds ends the loop with its fetched item: `j`
failed attempts, each followed by its linear-backoff sleep, then the
successful attempt. -/
lemma retryAux_first_success (doFetch : Nat → Except String α) (b : α) (es : Nat → String) :
    ∀ j r i le, j < r → (∀ k, k < j → doFetch (i + k) = .error (es (i + k))) →
      doFetch (i + j) = .ok b →
      retryAux doFetch r i le = (.ok b, failSeg i j ++ [.attempt 10000]) := by
  intro j
  induction j with
  | zero =>
    intro r i le hjr hfail hok
    obtain ⟨r', rfl⟩ : ∃ r', r = r' + 1 := ⟨r - 1, by omega⟩
    simp only [Nat.add_zero] at hok
    simp [retryAux, hok, failSeg]
  | succ j ih =>
    intro r i le hjr hfail hok
    obtain ⟨r', rfl⟩ : ∃ r', r = r' + 1 := ⟨r - 1, by omega⟩
    have h0 : doFetch i = .error (es i) := by simpa using hfail 0 (by omega)
    have hr' : r' ≠ 0 := by omega
    have hfail' : ∀ k, k < j → doFetch ((i + 1) + k) = .error (es ((i + 1) + k)) := by
      intro k hk
      have harith : i + 1 + k = i + (k + 1) := by omega
      rw [harith]
      exact hfail (k + 1) (by omega)
    have hok' : doFetch ((i + 1) + j) = .ok b := by
      have harith : i + 1 + j = i + (j + 1) := by omega
      rw [harith]; exact hok
    have ihh := ih r' (i + 1) (some (es i)) (by omega) hfail' hok'
    simp only [retryAux, h0, hr', if_false, ihh, failSeg_succ]
    rfl

/-- When every attempt in the budget fails, the loop exhausts all of them and
reports the error of the last attempt. -/
lemma retryAux_all_fail (doFetch : Nat → Except String α) (es : Nat → String) :
    ∀ r i le, 1 ≤ r → (∀ k, k < r → doFetch (i + k) = .error (es (i + k))) →
      retryAux doFetch r i le =
        (.error (some (es (i + r - 1))), failSeg i (r - 1) ++ [.attempt 10000]) := by
  intro r
  induction r with
  | zero => intro i le h1 _; omega
  | succ r ih =>
    intro i le _ hfail
    have h0 : doFetch i = .error (es i) := by simpa using hfail 0 (by omega)
    by_cases hr : r = 0
    · subst hr
      simp [retryAux, h0, failSeg]
    · have hfail' : ∀ k, k < r → doFetch ((i + 1) + k) = .error (es ((i + 1) + k)) := by
        intro k hk
        have harith : i + 1 + k = i + (k + 1) := by omega
        rw [harith]
        exact hfail (k + 1) (by omega)
      have ihh := ih (i + 1) (some (es i)) (by omega) hfail'
      have harith1 : i + 1 + r - 1 = i + (r + 1) - 1 := by omega
      rw [harith1] at ihh
      obtain ⟨r', rfl⟩ : ∃ r', r = r' + 1 := ⟨r - 1, by omega⟩
      rw [retryAux_succ]
      simp only [h0, hr, if_false]
      rw [ihh]
      have harith2 : r' + 1 + 1 - 1 = r' + 1 := by omega
      have harith3 : r' + 1 - 1 = r' := by omega
      simp only [harith2, harith3, failSeg_succ]
      rfl

/-- The caller-visible trace of `fetchBlockWithRetry` is the trace of its
retry loop. -/
lemma fetchBlockWithRetry_trace (doFetch : Nat → Except String α) (m : Nat) :
    (fetchBlockWithRetry doFetch m).2 = (retryAux doFetch m 0 none).2 := by
  unfold fetchBlockWithRetry
  rcases hr : retryAux doFetch m 0 none with ⟨res, tr⟩
  cases res <;> rfl

/-- C3: for every height, `fetchBlockWithRetry` makes at most `maxRetries`
total attempts, runs every attempt under its own fresh 10-second deadline,
sleeps the linear backoff `attemptIndex * 500ms` (1-based attempt index)
between a failed attempt and the next, returns the fetched item of the first
attempt that succeeds, and after exhausting all `maxRetries` attempts returns
an error wrapping the last attempt's error. -/
theorem fetchBlockWithRetry_spec (doFetch : Nat → Except String α) (maxRetries : Nat)
    (b : α) (j : Nat) (es : Nat → String) :
    attemptCount (fetchBlockWithRetry doFetch maxRetries).2 ≤ maxRetries ∧
    (∀ d, RetryEvent.attempt d ∈ (fetchBlockWithRetry doFetch maxRetries).2 → d = 10000) ∧
    sleepDurations (fetchBlockWithRetry doFetch maxRetries).2 =
      (List.range' 1 (attemptCount (fetchBlockWithRetry doFetch maxRetries).2 - 1)).map
        (fun k => k * 500) ∧
    (j < maxRetries → (∀ k, k < j → doFetch k = .error (es k)) → doFetch j = .ok b →
      fetchBlockWithRetry doFetch maxRetries = (.ok b, failSeg 0 j ++ [.attempt 10000])) ∧
    (1 ≤ maxRetries → (∀ k, k < maxRetries → doFetch k = .error (es k)) →
      fetchBlockWithRetry doFetch maxRetries =
        (.error (maxRetries, some (es (maxRetries - 1))),
         failSeg 0 (maxRetries - 1) ++ [.attempt 10000])) := by
  refine ⟨?_, ?_, ?_, ?_, ?_⟩
  · rw [fetchBlockWithRetry_trace]
    exact retryAux_attemptCount_le doFetch maxRetries 0 none
  · intro d hd
    rw [fetchBlockWithRetry_trace] at hd
    exact retryAux_fresh_deadline doFetch maxRetries 0 none d hd
  · rw [fetchBlockWithRetry_trace]
    exact retryAux_sleeps doFetch maxRetries 0 none
  · intro hj hfail hok
    have h := retryAux_first_success doFetch b es j maxRetries 0 none hj
      (fun k hk => by simpa using hfail k hk) (by simpa using hok)
    unfold fetchBlockWithRetry
    rw [h]
  · intro h1 hfail
    have h := retryAux_all_fail doFetch es maxRetries 0 none h1
      (fun k hk => by simpa using hfail k hk)
    unfold fetchBlockWithRetry
    rw [h]
    simp

/-- Per-attempt outcomes for the retry witness: the first two attempts fail,
the third succeeds. -/
def c3Fetch : Nat → Except String Nat :=
  fun a => if a < 2 then .error "timeout" else .ok 42

/-- Per-attempt outcomes that always fail. -/
def c3AllFail : Nat → Except String Nat := fun _ => .error "timeout"

theorem fetchBlockWithRetry_spec_witness :
    fetchBlockWithRetry c3Fetch 5 =
      (.ok 42, [.attempt 10000, .sleep 500, .attempt 10000, .sleep 1000, .attempt 10000]) ∧
    fetchBlockWithRetry c3AllFail 3 =
      (.error (3, some "timeout"),
       [.attempt 10000, .sleep 500, .attempt 10000, .sleep 1000, .attempt 10000]) :=
  ⟨by
    have h := (fetchBlockWithRetry_spec c3Fetch 5 42 2 (fun _ => "timeout")).2.2.2.1
      (by omega) (fun k hk => by unfold c3Fetch; rw [if_pos hk]) rfl
    simpa [failSeg, List.range'] using h,
   by
    have h := (fetchBlockWithRetry_spec c3AllFail 3 0 0 (fun _ => "timeout")).2.2.2.2
      (by omega) (fun k _ => rfl)
    simpa [failSeg, List.range'] using h⟩

/-- C4, counterexample: over `[100, 104]` with height 102 always failing and
no cancellation, the scan completes with `succeeded=4, skipped=1, total=5`,
but the failing height consumes exactly 2 attempts — never 3 — because
`fetchBlockRange` hardcodes a retry budget of 2 in its call to
`fetchBlockWithRetry`; no caller-supplied `maxRetries=3` exists. -/
theorem fetchBlockRange_three_attempts_false :
    c4Run =
      [.tick, .fetched 100 true 1, .tick, .fetched 101 true 1, .tick, .fetched 102 false 2,
       .tick, .fetched 103 true 1, .tick, .fetched 104 true 1, .summaryOut 4 1 5] ∧
    RangeStep.fetched 102 false 3 ∉ c4Run := by
  constructor
  · rfl
  · decide

/-- C4, amended: running the range fetcher over `[100, 104]` with exactly one
height always failing completes the whole scan (a failing height never halts
the remaining range) and reports `succeeded=4, skipped=1, total=5`, with the
failing height having consumed exactly 2 attempts (the retry budget the code
hardcodes), every other height 1. -/
theorem fetchBlockRange_single_failure (f : Nat) (em : Nat → String) (bv : Nat → Nat)
    (hlo : 100 ≤ f) (hhi : f ≤ 104) :
    RangeStep.summaryOut 4 1 5 ∈
      fetchBlockRange (fun h a => if h = f then .error (em a) else .ok (bv h))
        (fun _ => false) 100 104 ∧
    RangeStep.fetched f false 2 ∈
      fetchBlockRange (fun h a => if h = f then .error (em a) else .ok (bv h))
        (fun _ => false) 100 104 ∧
    (∀ h, 100 ≤ h → h ≤ 104 → h ≠ f →
      RangeStep.fetched h true 1 ∈
        fetchBlockRange (fun h' a => if h' = f then .error (em a) else .ok (bv h'))
          (fun _ => false) 100 104) := by
  interval_cases f <;>
    refine ⟨?_, ?_, ?_⟩ <;>
      simp [fetchBlockRange, rangeGo, fetchBlockWithRetry, retryAux, attemptCount,
        List.range'] <;>
      omega

theorem fetchBlockRange_single_failure_witness :
    RangeStep.summaryOut 4 1 5 ∈
      fetchBlockRange (fun h a => if h = 102 then .error ((fun _ => "boom") a)
          else .ok ((fun h' => h') h)) (fun _ => false) 100 104 ∧
    RangeStep.fetched 102 false 2 ∈
      fetchBlockRange (fun h a => if h = 102 then .error ((fun _ => "boom") a)
          else .ok ((fun h' => h') h)) (fun _ => false) 100 104 ∧
    RangeStep.fetched 100 true 1 ∈
      fetchBlockRange (fun h a => if h = 102 then .error ((fun _ => "boom") a)
          else .ok ((fun h' => h') h)) (fun _ => false) 100 104 :=
  ⟨(fetchBlockRange_single_failure 102 (fun _ => "boom") (fun h' => h')
      (by omega) (by omega)).1,
   (fetchBlockRange_single_failure 102 (fun _ => "boom") (fun h' => h')
      (by omega) (by omega)).2.1,
   (fetchBlockRange_single_failure 102 (fun _ => "boom") (fun h' => h')
      (by omega) (by omega)).2.2 100 (by omega) (by omega) (by omega)⟩

/-- A fetch that succeeds on its first attempt consumes exactly one attempt
under the range fetcher's hardcoded budget of 2. -/
lemma fetchBlockWithRetry_ok0 (doFetch : Nat → Except String α) (b : α)
    (h : doFetch 0 = .ok b) :
    fetchBlockWithRetry doFetch 2 = (.ok b, [.attempt 10000]) := by
  have hs := retryAux_first_success doFetch b (fun _ => "") 0 2 0 none (by omega)
    (fun k hk => absurd hk (by omega)) (by simpa using h)
  unfold fetchBlockWithRetry
  rw [hs]
  simp [failSeg]

/-- The range loop, when every height up to `c` succeeds first-try, no height
before `c` is cancelled, and `c` is cancelled: it processes exactly the
heights up to `c` and returns at the cancellation log, independent of the
counters and of the heights still pending. -/
lemma rangeGo_cancelled (doFetch : Nat → Nat → Except String α) (cancelled : Nat → Bool)
    (total : Nat) (bv : Nat → α) (c : Nat) (hs2 : List Nat) :
    ∀ hs1 s k, (∀ h ∈ hs1 ++ [c], doFetch h 0 = .ok (bv h)) →
      (∀ h ∈ hs1, cancelled h = false) → cancelled c = true →
      rangeGo doFetch cancelled total (hs1 ++ c :: hs2) s k =
        hs1.flatMap (fun h => [.tick, .fetched h true 1]) ++
          [.tick, .fetched c true 1, .cancelledLog c] := by
  intro hs1
  induction hs1 with
  | nil =>
    intro s k hok hnc hc
    have h0 : doFetch c 0 = .ok (bv c) := hok c (by simp)
    have hf := fetchBlockWithRetry_ok0 (doFetch c) (bv c) h0
    simp [rangeGo, hf, hc, attemptCount]
  | cons h0 rest ih =>
    intro s k hok hnc hc
    have hok0 : doFetch h0 0 = .ok (bv h0) := hok h0 (by simp)
    have hf := fetchBlockWithRetry_ok0 (doFetch h0) (bv h0) hok0
    have hnc0 : cancelled h0 = false := hnc h0 (by simp)
    have hok' : ∀ h ∈ rest ++ [c], doFetch h 0 = .ok (bv h) := by
      intro h hm
      exact hok h (by rw [List.cons_append]; exact List.mem_cons_of_mem _ hm)
    have hnc' : ∀ h ∈ rest, cancelled h = false := by
      intro h hm
      exact hnc h (List.mem_cons_of_mem _ hm)
    rw [List.cons_append, rangeGo]
    simp only [hf, hnc0, Bool.false_eq_true, if_false, ih (s + 1) k hok' hnc' hc]
    simp [attemptCount]

/-- C5, counterexample: over `[100, 104]` with every fetch succeeding and the
cancellation signal observed after height 102, the fetcher stops at the
cancellation log and its output contains no Summary step at all — the
`return` in the cancellation branch skips the `=== Summary ===` print, so no
partial Summary is ever reported. -/
theorem fetchBlockRange_cancel_reports_no_summary :
    c5Run = [.tick, .fetched 100 true 1, .tick, .fetched 101 true 1, .tick,
             .fetched 102 true 1, .cancelledLog 102] ∧
    c5Run.all (fun st => !isSummaryStep st) = true := by
  constructor
  · rfl
  · decide

/-- C5, amended: if the governing cancellation signal is observed after a
successful fetch at height `c`, the range fetcher stops scanning immediately
— no height beyond `c` is ever fetched — and emits only a cancellation
notice naming the stopping height; it reports no Summary at all, not even a
partial one. -/
theorem fetchBlockRange_cancel_no_summary (doFetch : Nat → Nat → Except String α)
    (cancelled : Nat → Bool) (start end_ c : Nat) (bv : Nat → α)
    (h1 : start ≤ c) (h2 : c ≤ end_)
    (hok : ∀ h, start ≤ h → h ≤ c → doFetch h 0 = .ok (bv h))
    (hnc : ∀ h, start ≤ h → h < c → cancelled h = false)
    (hc : cancelled c = true) :
    fetchBlockRange doFetch cancelled start end_ =
      (List.range' start (c - start)).flatMap (fun h => [.tick, .fetched h true 1]) ++
        [.tick, .fetched c true 1, .cancelledLog c] ∧
    (∀ s k t, RangeStep.summaryOut s k t ∉ fetchBlockRange doFetch cancelled start end_) ∧
    (∀ h ok a, c < h → RangeStep.fetched h ok a ∉ fetchBlockRange doFetch cancelled start end_) := by
  have hm : start + 1 * (c - start) = c := by omega
  have hn : (end_ - c + 1) + (c - start) = end_ - start + 1 := by omega
  have e1 := List.range'_append start (c - start) (end_ - c + 1) 1
  rw [hm, hn] at e1
  have e2 : List.range' c (end_ - c + 1) = c :: List.range' (c + 1) (end_ - c) :=
    List.range'_succ c (end_ - c) 1
  have hsplit : List.range' start (end_ - start + 1) =
      List.range' start (c - start) ++ c :: List.range' (c + 1) (end_ - c) := by
    rw [← e1, e2]
  have hmain : fetchBlockRange doFetch cancelled start end_ =
      (List.range' start (c - start)).flatMap (fun h => [.tick, .fetched h true 1]) ++
        [.tick, .fetched c true 1, .cancelledLog c] := by
    unfold fetchBlockRange
    rw [hsplit]
    apply rangeGo_cancelled
    · intro h hm2
      rcases List.mem_append.mp hm2 with hm3 | hm3
      · obtain ⟨ha, hb⟩ := List.mem_range'_1.mp hm3
        exact hok h ha (by omega)
      · simp at hm3
        rw [hm3]
        exact hok c h1 le_rfl
    · intro h hm2
      obtain ⟨ha, hb⟩ := List.mem_range'_1.mp hm2
      exact hnc h ha (by omega)
    · exact hc
  refine ⟨hmain, ?_, ?_⟩
  · intro s k t hmem
    rw [hmain] at hmem
    simp only [List.mem_append, List.mem_flatMap, List.mem_cons, List.not_mem_nil,
      or_false] at hmem
    rcases hmem with ⟨h', _, hm2⟩ | hm2 <;> simp_all
  · intro h ok a hlt hmem
    rw [hmain] at hmem
    simp only [List.mem_append, List.mem_flatMap, List.mem_cons, List.not_mem_nil,
      or_false] at hmem
    rcases hmem with ⟨h', hh', hm2⟩ | hm2
    · obtain ⟨ha, hb⟩ := List.mem_range'_1.mp hh'
      simp at hm2
      obtain ⟨rfl, -, -⟩ := hm2
      omega
    · simp at hm2
      obtain ⟨rfl, -, -⟩ := hm2
      omega

theorem fetchBlockRange_cancel_no_summary_witness :
    fetchBlockRange (fun h _ => (.ok h : Except String Nat)) (fun h => h == 102) 100 104 =
      (List.range' 100 2).flatMap (fun h => [.tick, .fetched h true 1]) ++
        [.tick, .fetched 102 true 1, .cancelledLog 102] ∧
    RangeStep.summaryOut 3 0 5 ∉
      fetchBlockRange (fun h _ => (.ok h : Except String Nat)) (fun h => h == 102) 100 104 ∧
    RangeStep.fetched 103 true 1 ∉
      fetchBlockRange (fun h _ => (.ok h : Except String Nat)) (fun h => h == 102) 100 104 :=
  ⟨(fetchBlockRange_cancel_no_summary (fun h _ => (.ok h : Except String Nat))
      (fun h => h == 102) 100 104 102 (fun h => h) (by omega) (by omega)
      (fun h _ _ => rfl) (fun h _ hlt => by simp; omega) rfl).1,
   (fetchBlockRange_cancel_no_summary (fun h _ => (.ok h : Except String Nat))
      (fun h => h == 102) 100 104 102 (fun h => h) (by omega) (by omega)
      (fun h _ _ => rfl) (fun h _ hlt => by simp; omega) rfl).2.1 3 0 5,
   (fetchBlockRange_cancel_no_summary (fun h _ => (.ok h : Except String Nat))
      (fun h => h == 102) 100 104 102 (fun h => h) (by omega) (by omega)
      (fun h _ _ => rfl) (fun h _ hlt => by simp; omega) rfl).2.2 103 true 1 (by omega)⟩
